import Mathlib

/-!
# Verification of the GPT event decoder (`scripts/parse_gpt.py`)

A shallow embedding of the GPT (GUID Partition Table) binary decoder:
byte buffers are `List Nat` (each element a byte value `< 256`),
Python slicing `b[a:]` / `b[:n]` becomes `List.drop` / `List.take`,
raised exceptions become an explicit error type, and the lazy generator
`read_partitions` is materialised into the list of records it yields
together with the error (if any) that terminates the traversal.
-/

set_option maxRecDepth 40000

namespace ParseGpt

/--
The distinct failure modes of the decoder, one constructor per raise site,
carrying exactly the data the source interpolates into the message:
* `structError expected` embeds Python's `struct.error`
  (`"unpack requires a buffer of {expected} bytes"`) raised by
  `struct.unpack` when the buffer length differs from the format size;
* `badSignature actual` embeds `GPTError(f"Bad signature: {header.signature}")`;
* `badRevision actual` embeds `GPTError(f"Bad revision: {header.revision}")`;
* `badHeaderSize actual` embeds `GPTError(f"Bad header size: {header.header_size}")`;
* `shortPartitionEntry` embeds `GPTError("Short partition entry")` — the
  message is a constant string, it carries no index;
* `unicodeDecodeError` embeds the `UnicodeDecodeError` that
  `part.name.decode("utf-16")` raises on malformed UTF-16 data.
-/
inductive GPTError where
  | structError (expected : Nat)
  | badSignature (actual : List Nat)
  | badRevision (actual : List Nat)
  | badHeaderSize (actual : Nat)
  | shortPartitionEntry
  | unicodeDecodeError
deriving Repr, DecidableEq

/-- Little-endian interpretation of a list of bytes, as used by the
`struct` format characters `L` (4 bytes) and `Q` (8 bytes) with the `<`
byte-order prefix of `GPT_HDR_FMT` / `GPT_PART_FMT`. -/
def le (bs : List Nat) : Nat :=
  bs.foldr (fun b acc => b + 256 * acc) 0

/-- Lower-case hex digit for a nibble, as produced by Python's `%x`
formatting inside `str(uuid.UUID(...))`. -/
def hexDigit (n : Nat) : Char :=
  if n < 10 then Char.ofNat (48 + n) else Char.ofNat (87 + n)

/-- The two lower-case hex digits of one byte. -/
def byteHex (n : Nat) : List Char :=
  [hexDigit (n / 16), hexDigit (n % 16)]

/-- Hex rendering of a byte sequence, most significant digit of each byte
first, bytes in list order. -/
def bytesHex : List Nat → List Char
  | [] => []
  | b :: bs => byteHex b ++ bytesHex bs

/--
`str(uuid.UUID(bytes_le=g))` for a 16-byte field `g`: the first three GUID
fields are stored little-endian on the wire (so their bytes are reversed
for display), the last two fields are rendered in storage order, and the
canonical form is the lower-case hyphenated `8-4-4-4-12` hex string.
`uuid.UUID(bytes_le=·)` demands exactly 16 bytes; the decoder only ever
passes it a `16s` struct field, so the non-16-byte branch is unreachable
and yields the empty string.
-/
def uuidStrLE (g : List Nat) : String :=
  match g with
  | [g0, g1, g2, g3, g4, g5, g6, g7, g8, g9, g10, g11, g12, g13, g14, g15] =>
    String.mk (bytesHex [g3, g2, g1, g0] ++ '-' ::
      (bytesHex [g5, g4] ++ '-' ::
        (bytesHex [g7, g6] ++ '-' ::
          (bytesHex [g8, g9] ++ '-' ::
            bytesHex [g10, g11, g12, g13, g14, g15]))))
  | _ => ""

/-- Numeric value of one hex digit character; accepts the lower-case
digits produced by canonicalisation and, like `uuid.UUID(hex=·)`, also
upper-case ones. -/
def hexVal (c : Char) : Option Nat :=
  if 48 ≤ c.toNat ∧ c.toNat ≤ 57 then some (c.toNat - 48)
  else if 97 ≤ c.toNat ∧ c.toNat ≤ 102 then some (c.toNat - 87)
  else if 65 ≤ c.toNat ∧ c.toNat ≤ 70 then some (c.toNat - 55)
  else none

/-- Parse `n` bytes written as hex-digit pairs from the front of a
character list, returning the bytes and the unconsumed characters. -/
def parseHexBytes : Nat → List Char → Option (List Nat × List Char)
  | 0, cs => some ([], cs)
  | n + 1, c1 :: c2 :: cs =>
    match hexVal c1, hexVal c2 with
    | some v1, some v2 =>
      match parseHexBytes n cs with
      | some (bs, rest) => some ((16 * v1 + v2) :: bs, rest)
      | none => none
    | _, _ => none
  | _ + 1, _ => none

/-- Consume one `-` separator of the canonical GUID form. -/
def parseDash : List Char → Option (List Char)
  | '-' :: cs => some cs
  | _ => none

/--
Re-encode a canonical hyphenated GUID string back to its 16-byte
little-endian wire form — the inverse direction of `uuidStrLE`,
i.e. `uuid.UUID(s).bytes_le`: the first three groups are byte-swapped
back into little-endian storage order, the last two kept as written.
Returns `none` when the string is not of the canonical `8-4-4-4-12` shape.
-/
def guidEncodeLE (s : String) : Option (List Nat) :=
  match parseHexBytes 4 s.data with
  | none => none
  | some (a, cs) =>
  match parseDash cs with
  | none => none
  | some cs =>
  match parseHexBytes 2 cs with
  | none => none
  | some (b, cs) =>
  match parseDash cs with
  | none => none
  | some cs =>
  match parseHexBytes 2 cs with
  | none => none
  | some (c, cs) =>
  match parseDash cs with
  | none => none
  | some cs =>
  match parseHexBytes 2 cs with
  | none => none
  | some (d, cs) =>
  match parseDash cs with
  | none => none
  | some cs =>
  match parseHexBytes 6 cs with
  | none => none
  | some (e, cs) =>
  if cs = [] then
    match a, b, c with
    | [a0, a1, a2, a3], [b0, b1], [c0, c1] =>
      some ([a3, a2, a1, a0, b1, b0, c1, c0] ++ d ++ e)
    | _, _, _ => none
  else none

/-- The fields of `GPTHeader` as unpacked by `GPT_HDR_FMT`
(`<8s4sLL4xQQQQ16sQLLL`, 92 bytes) and then canonicalised: `disk_guid`
holds the canonical GUID string substituted by `_replace`, every other
field holds the value unpacked from the buffer. -/
structure GPTHeader where
  signature : List Nat
  revision : List Nat
  header_size : Nat
  crc32 : Nat
  current_lba : Nat
  backup_lba : Nat
  first_usable_lba : Nat
  last_usable_lba : Nat
  disk_guid : String
  part_entry_start_lba : Nat
  num_part_entries : Nat
  part_entry_size : Nat
  crc32_part_array : Nat
deriving Repr, DecidableEq

/-- The ASCII bytes of the literal `b"EFI PART"`. -/
def efiPartSignature : List Nat := [69, 70, 73, 32, 80, 65, 82, 84]

/-- The revision bytes `b"\x00\x00\x01\x00"`. -/
def revision10 : List Nat := [0, 0, 1, 0]

/--
Body of `read_header` applied to `data = event[:struct.calcsize(GPT_HDR_FMT)]`:
`struct.unpack` demands exactly 92 bytes (else `struct.error`), the fields
live at the fixed offsets of `GPT_HEADER_FORMAT` (the `4x` pad bytes at
offset 20 are consumed and discarded), and the three validations run in
source order before `disk_guid` is canonicalised by `_replace`.
-/
def read_header_data (data : List Nat) : Except GPTError GPTHeader :=
  if data.length = 92 then
    let signature := data.take 8
    let revision := (data.drop 8).take 4
    let header_size := le ((data.drop 12).take 4)
    if signature ≠ efiPartSignature then
      .error (.badSignature signature)
    else if revision ≠ revision10 then
      .error (.badRevision revision)
    else if header_size < 92 then
      .error (.badHeaderSize header_size)
    else
      .ok ⟨signature, revision, header_size,
        le ((data.drop 16).take 4),
        le ((data.drop 24).take 8),
        le ((data.drop 32).take 8),
        le ((data.drop 40).take 8),
        le ((data.drop 48).take 8),
        uuidStrLE ((data.drop 56).take 16),
        le ((data.drop 72).take 8),
        le ((data.drop 80).take 4),
        le ((data.drop 84).take 4),
        le ((data.drop 88).take 4)⟩
  else
    .error (.structError 92)

/-- `read_header(event)`: truncate the event to the 92-byte header prefix
and decode it. -/
def read_header (event : List Nat) : Except GPTError GPTHeader :=
  read_header_data (event.take 92)


/-- The fields of `GPTPartition` as unpacked by `GPT_PART_FMT`
(`<16s16sQQQ72s`, 128 bytes) and then canonicalised by `_replace`:
`type` and `unique` hold canonical GUID strings, `name` the decoded
UTF-16 text truncated at the first NUL, and `index` the 1-based loop
counter appended by `_make(... + (i,))`. -/
structure GPTPartition where
  type : String
  unique : String
  first_lba : Nat
  last_lba : Nat
  flags : Nat
  name : String
  index : Nat
deriving Repr, DecidableEq

/--
In Python 3 a `bytes` value never compares equal to a `str` value:
`bytes.__eq__` returns `NotImplemented` for a `str` argument and the
fallback identity comparison is `False` regardless of content. This
embeds the guard `part.type == 16 * "\x00"` (raw bytes versus a text
literal), which therefore never succeeds.
-/
def pyBytesEqStr (_b : List Nat) (_s : String) : Bool := false

/-- The text literal `16 * "\x00"` the source compares the raw `type`
bytes against. -/
def nulStr16 : String := String.mk (List.replicate 16 (Char.ofNat 0))

/-- Group a byte list into little-endian 16-bit code units; `none` on a
trailing odd byte (a `UnicodeDecodeError` in Python). -/
def utf16UnitsLE : List Nat → Option (List Nat)
  | [] => some []
  | b0 :: b1 :: bs =>
    match utf16UnitsLE bs with
    | some us => some ((b0 + 256 * b1) :: us)
    | none => none
  | [_] => none

/-- Group a byte list into big-endian 16-bit code units; `none` on a
trailing odd byte. -/
def utf16UnitsBE : List Nat → Option (List Nat)
  | [] => some []
  | b0 :: b1 :: bs =>
    match utf16UnitsBE bs with
    | some us => some ((b1 + 256 * b0) :: us)
    | none => none
  | [_] => none

/-- Combine a stream of UTF-16 code units into characters: a high
surrogate must be followed by a low surrogate (together encoding one
astral character), and a lone surrogate is a decode error (`none`). -/
def combineSurrogates : List Nat → Option (List Char)
  | [] => some []
  | u :: us =>
    if 0xD800 ≤ u ∧ u < 0xDC00 then
      match us with
      | u2 :: us2 =>
        if 0xDC00 ≤ u2 ∧ u2 < 0xE000 then
          match combineSurrogates us2 with
          | some cs => some (Char.ofNat (0x10000 + (u - 0xD800) * 0x400 + (u2 - 0xDC00)) :: cs)
          | none => none
        else none
      | [] => none
    else if 0xDC00 ≤ u ∧ u < 0xE000 then none
    else
      match combineSurrogates us with
      | some cs => some (Char.ofNat u :: cs)
      | none => none

/--
`bytes.decode("utf-16")`: a leading byte-order mark selects the
endianness and is stripped; without one the codec uses the machine's
native order, little-endian on every platform this script targets.
Returns `none` where Python raises `UnicodeDecodeError` (odd length or a
lone surrogate).
-/
def pyDecodeUtf16 (bs : List Nat) : Option (List Char) :=
  match bs with
  | 0xFF :: 0xFE :: rest =>
    match utf16UnitsLE rest with
    | some us => combineSurrogates us
    | none => none
  | 0xFE :: 0xFF :: rest =>
    match utf16UnitsBE rest with
    | some us => combineSurrogates us
    | none => none
  | _ =>
    match utf16UnitsLE bs with
    | some us => combineSurrogates us
    | none => none

/-- `.split("\0", 1)[0]`: the prefix of the text before the first NUL
character. -/
def splitNul (cs : List Char) : List Char :=
  cs.takeWhile (fun c => c ≠ Char.ofNat 0)

/--
The loop body of `read_partitions`, materialised: `ev` is the remaining
partition-array region, `pes` the entry stride `header.part_entry_size`,
`i` the 1-based index of the next slot, and `fuel` the remaining loop
iterations (initially `header.num_part_entries`). Returns the records the
generator yields, paired with the error that aborts the traversal
(`none` when the loop returns normally).

Per iteration, in source order: take `data = event[:pes]` and advance;
return normally on an empty slice; raise `shortPartitionEntry` when
`len(data) < 128`; `struct.unpack` demands exactly 128 bytes, so a longer
slice (`pes > 128`) raises `struct.error`; the unused-slot guard compares
the raw `type` bytes to a text literal (`pyBytesEqStr`, always false);
`_replace` canonicalises the two GUIDs and decodes `name` as UTF-16
truncated at the first NUL (raising on malformed UTF-16); the record is
yielded with `index = i`.
-/
def readPartLoop (ev : List Nat) (pes : Nat) (i : Nat) :
    Nat → List GPTPartition × Option GPTError
  | 0 => ([], none)
  | fuel + 1 =>
    let data := ev.take pes
    let rest := ev.drop pes
    if data.isEmpty then ([], none)
    else if data.length < 128 then ([], some .shortPartitionEntry)
    else if data.length = 128 then
      let ptype := data.take 16
      if pyBytesEqStr ptype nulStr16 then
        readPartLoop rest pes (i + 1) fuel
      else
        match pyDecodeUtf16 ((data.drop 56).take 72) with
        | none => ([], some .unicodeDecodeError)
        | some cs =>
          let part : GPTPartition :=
            ⟨uuidStrLE ptype,
             uuidStrLE ((data.drop 16).take 16),
             le ((data.drop 32).take 8),
             le ((data.drop 40).take 8),
             le ((data.drop 48).take 8),
             String.mk (splitNul cs),
             i⟩
          let tail := readPartLoop rest pes (i + 1) fuel
          (part :: tail.1, tail.2)
    else ([], some (.structError 128))

/-- `read_partitions(event, header, lba_size)`: slice the buffer at the
partition-array byte offset `header.part_entry_start_lba * lba_size` and
run the entry loop for `header.num_part_entries` iterations starting at
index 1. -/
def read_partitions (event : List Nat) (header : GPTHeader) (lba_size : Nat) :
    List GPTPartition × Option GPTError :=
  readPartLoop (event.drop (header.part_entry_start_lba * lba_size))
    header.part_entry_size 1 header.num_part_entries

/-- The invocation `read_partitions(event, header)` with the parameter
omitted: the source signature declares the default `lba_size: int = 50`,
which `main` relies on. -/
def read_partitions_default (event : List Nat) (header : GPTHeader) :
    List GPTPartition × Option GPTError :=
  read_partitions event header 50

/-! ## Concrete example inputs -/

/-- A 92-byte GPT header: signature `EFI PART`, revision `00 00 01 00`,
`header_size = 92`, zero checksums and sector addresses, all-zero disk
GUID, `part_entry_start_lba = 1`, `num_part_entries = 2`,
`part_entry_size = 128`. -/
def gptHeaderBytes : List Nat :=
  efiPartSignature ++ revision10 ++ [92, 0, 0, 0] ++ List.replicate 8 0 ++
    List.replicate 32 0 ++ List.replicate 16 0 ++
    [1, 0, 0, 0, 0, 0, 0, 0] ++ [2, 0, 0, 0] ++ [128, 0, 0, 0] ++ [0, 0, 0, 0]

/-- The header record `read_header` produces for `gptHeaderBytes`. -/
def exampleHeader : GPTHeader :=
  ⟨efiPartSignature, revision10, 92, 0, 0, 0, 0, 0,
   "00000000-0000-0000-0000-000000000000", 1, 2, 128, 0⟩

/-- The EFI System Partition type GUID
`c12a7328-f81f-11d2-ba4b-00a0c93ec93b` in little-endian wire form. -/
def efiSystemTypeLE : List Nat :=
  [40, 115, 42, 193, 31, 248, 210, 17, 186, 75, 0, 160, 201, 62, 201, 59]

/-- `"EFI System"` UTF-16LE-encoded and NUL-padded to the 72-byte name
field. -/
def efiSystemName72 : List Nat :=
  [69, 0, 70, 0, 73, 0, 32, 0, 83, 0, 121, 0, 115, 0, 116, 0, 101, 0, 109, 0] ++
    List.replicate 52 0

/-- A populated 128-byte partition entry: EFI System type GUID, all-zero
unique GUID, `first_lba = 2048`, `last_lba = 4095`, zero flags, name
`"EFI System"`. -/
def populatedEntry : List Nat :=
  efiSystemTypeLE ++ List.replicate 16 0 ++ [0, 8, 0, 0, 0, 0, 0, 0] ++
    [255, 15, 0, 0, 0, 0, 0, 0] ++ List.replicate 8 0 ++ efiSystemName72

/-- An unused 128-byte partition slot: every byte zero, in particular the
16-byte type field is the all-zero pattern. -/
def zeroEntry : List Nat := List.replicate 128 0

/-- Buffer for the populated-then-empty layout (`K = 1 < N = 2`): header,
then slot 1 populated, then slot 2 all-zero, with the partition array at
byte offset `1 * 92 = 92`. -/
def c1event : List Nat := gptHeaderBytes ++ populatedEntry ++ zeroEntry

/-- Buffer for the spec's worked example: header, then slot 1 all-zero,
then slot 2 the `"EFI System"` entry, with the partition array at byte
offset `1 * 92 = 92`. -/
def c2event : List Nat := gptHeaderBytes ++ zeroEntry ++ populatedEntry

/-- A header record whose partition array starts at byte offset 0 of the
buffer handed to `read_partitions` (so example buffers can hold the
entries alone), with `num_part_entries = num` and the standard 128-byte
entry stride. -/
def bareHeader (num : Nat) : GPTHeader :=
  ⟨efiPartSignature, revision10, 92, 0, 0, 0, 0, 0,
   "00000000-0000-0000-0000-000000000000", 0, num, 128, 0⟩

/-! ## Helper lemmas -/

/-- Reading at offset `k` inside the 92-byte header prefix equals
reading at offset `k` in the whole event buffer. -/
lemma take92_drop_take (e : List Nat) (k n : Nat) (hkn : k + n ≤ 92) :
    ((e.take 92).drop k).take n = (e.drop k).take n := by
  rw [List.drop_take, List.take_take]
  congr 1
  omega

/-- Inversion of a successful `read_header`: the buffer covers the
92-byte prefix, every field holds the value at its fixed offset in that
prefix, and the three validations passed. -/
lemma read_header_ok_cases (e : List Nat) (hd : GPTHeader)
    (hok : read_header e = .ok hd) :
    (e.take 92).length = 92 ∧
    hd.signature = (e.take 92).take 8 ∧
    hd.revision = ((e.take 92).drop 8).take 4 ∧
    hd.header_size = le (((e.take 92).drop 12).take 4) ∧
    hd.crc32 = le (((e.take 92).drop 16).take 4) ∧
    hd.current_lba = le (((e.take 92).drop 24).take 8) ∧
    hd.backup_lba = le (((e.take 92).drop 32).take 8) ∧
    hd.first_usable_lba = le (((e.take 92).drop 40).take 8) ∧
    hd.last_usable_lba = le (((e.take 92).drop 48).take 8) ∧
    hd.disk_guid = uuidStrLE (((e.take 92).drop 56).take 16) ∧
    hd.part_entry_start_lba = le (((e.take 92).drop 72).take 8) ∧
    hd.num_part_entries = le (((e.take 92).drop 80).take 4) ∧
    hd.part_entry_size = le (((e.take 92).drop 84).take 4) ∧
    hd.crc32_part_array = le (((e.take 92).drop 88).take 4) ∧
    hd.signature = efiPartSignature ∧ hd.revision = revision10 ∧
    92 ≤ hd.header_size := by
  simp only [read_header, read_header_data] at hok
  split at hok
  case isFalse => exact absurd hok (by simp)
  case isTrue h92 =>
    split at hok
    case isTrue => exact absurd hok (by simp)
    case isFalse hsig =>
      split at hok
      case isTrue => exact absurd hok (by simp)
      case isFalse hrev =>
        split at hok
        case isTrue => exact absurd hok (by simp)
        case isFalse hsize =>
          injection hok with hh
          subst hh
          refine ⟨h92, rfl, rfl, rfl, rfl, rfl, rfl, rfl, rfl, rfl, rfl,
            rfl, rfl, rfl, ?_, ?_, ?_⟩
          · simpa using hsig
          · simpa using hrev
          · exact Nat.le_of_not_lt hsize

lemma hexVal_hexDigit : ∀ m < 16, hexVal (hexDigit m) = some m := by decide

lemma parseHexBytes_bytesHex (bs : List Nat) (hb : ∀ b ∈ bs, b < 256) :
    ∀ rest : List Char,
      parseHexBytes bs.length (bytesHex bs ++ rest) = some (bs, rest) := by
  induction bs with
  | nil => intro rest; rfl
  | cons b bs ih =>
    intro rest
    have hb256 : b < 256 := hb b (by simp)
    have h1 : hexVal (hexDigit (b / 16)) = some (b / 16) :=
      hexVal_hexDigit _ (by omega)
    have h2 : hexVal (hexDigit (b % 16)) = some (b % 16) :=
      hexVal_hexDigit _ (by omega)
    have hrec := ih (fun x hx => hb x (by simp [hx])) rest
    show parseHexBytes (bs.length + 1)
      (hexDigit (b / 16) :: hexDigit (b % 16) :: (bytesHex bs ++ rest)) =
      some (b :: bs, rest)
    simp only [parseHexBytes, h1, h2]
    rw [hrec]
    have hb' : 16 * (b / 16) + b % 16 = b := by omega
    simp [hb']

lemma parseHexBytes_append (n : Nat) (bs : List Nat) (hn : bs.length = n)
    (hb : ∀ b ∈ bs, b < 256) :
    ∀ rest : List Char,
      parseHexBytes n (bytesHex bs ++ rest) = some (bs, rest) := by
  subst hn; exact parseHexBytes_bytesHex bs hb

lemma parseDash_cons (cs : List Char) : parseDash ('-' :: cs) = some cs := rfl

lemma parseHexBytes_all (n : Nat) (bs : List Nat) (hn : bs.length = n)
    (hb : ∀ b ∈ bs, b < 256) : parseHexBytes n (bytesHex bs) = some (bs, []) := by
  have h := parseHexBytes_append n bs hn hb []
  simpa using h

lemma guidEncodeLE_uuidStrLE (g : List Nat) (hlen : g.length = 16)
    (hb : ∀ b ∈ g, b < 256) : guidEncodeLE (uuidStrLE g) = some g := by
  rcases g with _ | ⟨g0, _ | ⟨g1, _ | ⟨g2, _ | ⟨g3, _ | ⟨g4, _ | ⟨g5, _ | ⟨g6,
    _ | ⟨g7, _ | ⟨g8, _ | ⟨g9, _ | ⟨g10, _ | ⟨g11, _ | ⟨g12, _ | ⟨g13,
    _ | ⟨g14, _ | ⟨g15, rest⟩⟩⟩⟩⟩⟩⟩⟩⟩⟩⟩⟩⟩⟩⟩⟩
  all_goals
    try (exfalso; simp only [List.length_cons, List.length_nil] at hlen; omega)
  rcases rest with _ | ⟨x, rest⟩
  case cons =>
    exfalso; simp only [List.length_cons, List.length_nil] at hlen; omega
  have h0 : g0 < 256 := hb _ (by simp)
  have h1 : g1 < 256 := hb _ (by simp)
  have h2 : g2 < 256 := hb _ (by simp)
  have h3 : g3 < 256 := hb _ (by simp)
  have h4 : g4 < 256 := hb _ (by simp)
  have h5 : g5 < 256 := hb _ (by simp)
  have h6 : g6 < 256 := hb _ (by simp)
  have h7 : g7 < 256 := hb _ (by simp)
  have h8 : g8 < 256 := hb _ (by simp)
  have h9 : g9 < 256 := hb _ (by simp)
  have h10 : g10 < 256 := hb _ (by simp)
  have h11 : g11 < 256 := hb _ (by simp)
  have h12 : g12 < 256 := hb _ (by simp)
  have h13 : g13 < 256 := hb _ (by simp)
  have h14 : g14 < 256 := hb _ (by simp)
  have h15 : g15 < 256 := hb _ (by simp)
  simp only [uuidStrLE, guidEncodeLE,
    parseHexBytes_append 4 [g3, g2, g1, g0] rfl (by simp [h0, h1, h2, h3]),
    parseHexBytes_append 2 [g5, g4] rfl (by simp [h4, h5]),
    parseHexBytes_append 2 [g7, g6] rfl (by simp [h6, h7]),
    parseHexBytes_append 2 [g8, g9] rfl (by simp [h8, h9]),
    parseHexBytes_all 6 [g10, g11, g12, g13, g14, g15] rfl
      (by simp [h10, h11, h12, h13, h14, h15]),
    parseDash_cons]
  simp

lemma readPartLoop_length_le (fuel : Nat) : ∀ (ev : List Nat) (pes i : Nat),
    (readPartLoop ev pes i fuel).1.length ≤ fuel := by
  induction fuel with
  | zero => intro ev pes i; simp [readPartLoop]
  | succ n ih =>
    intro ev pes i
    simp only [readPartLoop, pyBytesEqStr]
    split
    · simp
    · split
      · simp
      · split
        · simp only [Bool.false_eq_true, if_false]
          split
          · simp
          · simpa using Nat.succ_le_succ (ih (ev.drop pes) pes (i + 1))
        · simp

lemma name_slice_eq (ev : List Nat) :
    ((ev.take 128).drop 56).take 72 = (ev.drop 56).take 72 := by
  rw [List.drop_take, List.take_take]
  norm_num

lemma readPartLoop_exhausted (m : Nat) : ∀ (ev : List Nat) (i fuel : Nat),
    ev.length = 128 * m → m ≤ fuel →
    (∀ k < m, pyDecodeUtf16 ((ev.drop (128 * k + 56)).take 72) ≠ none) →
    (readPartLoop ev 128 i fuel).2 = none := by
  induction m with
  | zero =>
    intro ev i fuel hlen _ _
    have : ev = [] := List.eq_nil_of_length_eq_zero (by omega)
    subst this
    cases fuel <;> simp [readPartLoop]
  | succ m ih =>
    intro ev i fuel hlen hm hdec
    rcases fuel with _ | f
    · omega
    have hlen128 : 128 ≤ ev.length := by omega
    have hne : ¬(ev.take 128).isEmpty := by
      simp [List.isEmpty_iff, ← List.length_eq_zero, List.length_take]
      omega
    have hfull : (ev.take 128).length = 128 := by
      simp [List.length_take]; omega
    have hdec0 : pyDecodeUtf16 ((ev.drop 56).take 72) ≠ none := by
      have h := hdec 0 (by omega)
      simpa using h
    simp only [readPartLoop, pyBytesEqStr, hne, if_false, hfull]
    norm_num
    rw [name_slice_eq]
    obtain ⟨cs, hcs⟩ := Option.ne_none_iff_exists'.mp hdec0
    rw [hcs]
    have htail : ((ev.drop 128).length = 128 * m) := by
      simp [List.length_drop]; omega
    have htdec : ∀ k < m, pyDecodeUtf16 (((ev.drop 128).drop (128 * k + 56)).take 72) ≠ none := by
      intro k hk
      have h := hdec (k + 1) (by omega)
      rw [List.drop_drop]
      have harith : 128 + (128 * k + 56) = 128 * (k + 1) + 56 := by ring
      rw [harith]
      exact h
    exact ih (ev.drop 128) (i + 1) f htail (by omega) htdec

lemma readPartLoop_short (m : Nat) : ∀ (ev : List Nat) (i fuel : Nat),
    128 * m < ev.length → ev.length < 128 * (m + 1) → m < fuel →
    (∀ k < m, pyDecodeUtf16 ((ev.drop (128 * k + 56)).take 72) ≠ none) →
    (readPartLoop ev 128 i fuel).2 = some .shortPartitionEntry ∧
      (readPartLoop ev 128 i fuel).1.map (fun p => p.index) = List.range' i m := by
  induction m with
  | zero =>
    intro ev i fuel hlo hhi hm _
    rcases fuel with _ | f
    · omega
    have hne : ¬(ev.take 128).isEmpty := by
      simp [List.isEmpty_iff, ← List.length_eq_zero, List.length_take]
      omega
    have hlt : ev.length < 128 := by omega
    simp [readPartLoop, hne, hlt, List.range']
  | succ m ih =>
    intro ev i fuel hlo hhi hm hdec
    rcases fuel with _ | f
    · omega
    have hlen128 : 128 ≤ ev.length := by omega
    have hne : ¬(ev.take 128).isEmpty := by
      simp [List.isEmpty_iff, ← List.length_eq_zero, List.length_take]
      omega
    have hfull : (ev.take 128).length = 128 := by
      simp [List.length_take]; omega
    have hdec0 : pyDecodeUtf16 ((ev.drop 56).take 72) ≠ none := by
      have h := hdec 0 (by omega)
      simpa using h
    simp only [readPartLoop, pyBytesEqStr, hne, if_false, hfull]
    norm_num
    rw [name_slice_eq]
    obtain ⟨cs, hcs⟩ := Option.ne_none_iff_exists'.mp hdec0
    rw [hcs]
    have htdec : ∀ k < m, pyDecodeUtf16 (((ev.drop 128).drop (128 * k + 56)).take 72) ≠ none := by
      intro k hk
      have h := hdec (k + 1) (by omega)
      rw [List.drop_drop]
      have harith : 128 + (128 * k + 56) = 128 * (k + 1) + 56 := by ring
      rw [harith]
      exact h
    have htail := ih (ev.drop 128) (i + 1) f
      (by simp [List.length_drop]; omega) (by simp [List.length_drop]; omega)
      (by omega) htdec
    refine ⟨htail.1, ?_⟩
    rw [List.range'_succ]
    simp [htail.2]

/-! ## Claim theorems -/

/-- A 60-byte tail: a non-empty slice shorter than the 128-byte fixed
partition-entry layout. -/
def shortTail : List Nat := List.replicate 60 1

/-- Partition region whose very first slot is a short slice. -/
def c3bufA : List Nat := shortTail

/-- Partition region with one complete populated slot followed by a short
slice at slot 2. -/
def c3bufB : List Nat := populatedEntry ++ shortTail

/-- Partition region for the sector-size example: 50 bytes of padding
(the byte offset `1 * 50` computed with the default `lba_size = 50`)
followed by one populated entry. -/
def c9buf : List Nat := List.replicate 50 0 ++ populatedEntry

/-- Header for the sector-size example: partition array at LBA 1, one
declared entry of 128 bytes. -/
def c9hdr : GPTHeader :=
  ⟨efiPartSignature, revision10, 92, 0, 0, 0, 0, 0,
   "00000000-0000-0000-0000-000000000000", 1, 1, 128, 0⟩

/-- The decoded `Header` of a successful `decode_header` run, related
field by field to the fixed-layout regions of the buffer: every field is
the verbatim little-endian value at its offset, except `disk_guid`, which
is the canonicalised GUID string of bytes 56–71 and re-encodes to exactly
those 16 bytes. -/
def HeaderMatchesLayout (event : List Nat) (hd : GPTHeader) : Prop :=
  hd.signature = event.take 8 ∧
  hd.revision = (event.drop 8).take 4 ∧
  hd.header_size = le ((event.drop 12).take 4) ∧
  hd.crc32 = le ((event.drop 16).take 4) ∧
  hd.current_lba = le ((event.drop 24).take 8) ∧
  hd.backup_lba = le ((event.drop 32).take 8) ∧
  hd.first_usable_lba = le ((event.drop 40).take 8) ∧
  hd.last_usable_lba = le ((event.drop 48).take 8) ∧
  hd.disk_guid = uuidStrLE ((event.drop 56).take 16) ∧
  guidEncodeLE hd.disk_guid = some ((event.drop 56).take 16) ∧
  hd.part_entry_start_lba = le ((event.drop 72).take 8) ∧
  hd.num_part_entries = le ((event.drop 80).take 4) ∧
  hd.part_entry_size = le ((event.drop 84).take 4) ∧
  hd.crc32_part_array = le ((event.drop 88).take 4)

/-- **C1** (code evaluated at the failing input): with `num_part_entries = 2`
and exactly one populated slot followed by an all-zero-type slot, the code
yields TWO records, not one — the all-zero slot is emitted with
`index = 2` and the all-zero GUID string, because the unused-slot guard
compares `bytes` to `str` and never fires. -/
theorem c1_all_zero_type_slot_is_yielded :
    read_header c1event = .ok exampleHeader ∧
    (read_partitions c1event exampleHeader 92).2 = none ∧
    (read_partitions c1event exampleHeader 92).1.map (fun p => (p.index, p.type)) =
      [(1, "c12a7328-f81f-11d2-ba4b-00a0c93ec93b"),
       (2, "00000000-0000-0000-0000-000000000000")] := by
  refine ⟨rfl, rfl, rfl⟩

/-- **C2** (code evaluated at the spec's worked example): the traversal
yields TWO partitions — the all-zero slot 1 as a record with `index = 1`,
empty name and all-zero GUID string, then the `"EFI System"` record with
`index = 2` — not the single record the claim promises. -/
theorem c2_worked_example_yields_two :
    read_header c2event = .ok exampleHeader ∧
    (read_partitions c2event exampleHeader 92).2 = none ∧
    (read_partitions c2event exampleHeader 92).1.map (fun p => (p.index, p.name, p.type)) =
      [(1, "", "00000000-0000-0000-0000-000000000000"),
       (2, "EFI System", "c12a7328-f81f-11d2-ba4b-00a0c93ec93b")] := by
  refine ⟨rfl, rfl, rfl⟩

/-- **C3** (counterexample): traversals failing at slot 1 (no record
yielded) and at slot 2 (one record yielded) produce the identical error
value — `GPTError("Short partition entry")` carries no index, contrary to
the claim's `ShortPartitionEntry(j)`. -/
theorem c3_error_carries_no_index :
    (read_partitions c3bufA (bareHeader 2) 1).1.length = 0 ∧
    (read_partitions c3bufB (bareHeader 2) 1).1.length = 1 ∧
    (read_partitions c3bufA (bareHeader 2) 1).2 = some .shortPartitionEntry ∧
    (read_partitions c3bufA (bareHeader 2) 1).2 =
      (read_partitions c3bufB (bareHeader 2) 1).2 := by
  refine ⟨rfl, rfl, rfl, rfl⟩

/-- **C3** (amended): if the partition region holds `m` complete 128-byte
slots (each with well-formed UTF-16 name bytes) and then a non-empty slice
shorter than 128 bytes at slot `j = m + 1 ≤ num_part_entries`, the
traversal yields exactly the records of slots `1..m` (indices `1..m`, no
partial record for slot `j`) and aborts with `shortPartitionEntry`, which
carries no index. -/
theorem c3_short_entry_aborts (event : List Nat) (hd : GPTHeader) (s m : Nat)
    (hpes : hd.part_entry_size = 128)
    (hlo : 128 * m < (event.drop (hd.part_entry_start_lba * s)).length)
    (hhi : (event.drop (hd.part_entry_start_lba * s)).length < 128 * (m + 1))
    (hm : m < hd.num_part_entries)
    (hdec : ∀ k < m, pyDecodeUtf16
      (((event.drop (hd.part_entry_start_lba * s)).drop (128 * k + 56)).take 72) ≠ none) :
    (read_partitions event hd s).2 = some .shortPartitionEntry ∧
    (read_partitions event hd s).1.map (fun p => p.index) = List.range' 1 m := by
  rw [read_partitions, hpes]
  exact readPartLoop_short m _ 1 _ hlo hhi hm hdec

/-- Witness for `c3_short_entry_aborts` at `c3bufB`: one complete slot,
then a 60-byte slice at slot 2. -/
theorem c3_short_entry_aborts_witness :
    (read_partitions c3bufB (bareHeader 2) 1).2 = some .shortPartitionEntry ∧
    (read_partitions c3bufB (bareHeader 2) 1).1.map (fun p => p.index) =
      List.range' 1 1 :=
  c3_short_entry_aborts c3bufB (bareHeader 2) 1 1 rfl (by decide) (by decide)
    (by decide) (by decide)

/-- **C4**: on a buffer shorter than the 92-byte header prefix,
`read_header` fails with the structural-size error of `struct.unpack`
(the spec's `Underrun`), never with a field-level validation error. -/
theorem c4_short_buffer_underrun (event : List Nat) (hlen : event.length < 92) :
    read_header event = .error (.structError 92) := by
  have h : ¬(event.take 92).length = 92 := by
    simp only [List.length_take]
    omega
  simp only [read_header, read_header_data]
  rw [if_neg h]

/-- Witness for `c4_short_buffer_underrun` at the empty buffer. -/
theorem c4_short_buffer_underrun_witness :
    ([] : List Nat).length < 92 ∧
    read_header [] = .error (.structError 92) :=
  ⟨by decide, c4_short_buffer_underrun [] (by decide)⟩

/-- **C5**: the traversal yields at most `num_part_entries` records, and
when the partition region is exhausted exactly at an entry boundary after
`m ≤ num_part_entries` complete, cleanly decoding slots, the sequence
terminates normally with no error even though `num_part_entries` promised
more entries. -/
theorem c5_early_termination_is_not_error :
    (∀ (event : List Nat) (hd : GPTHeader) (s : Nat),
      (read_partitions event hd s).1.length ≤ hd.num_part_entries) ∧
    ∀ (event : List Nat) (hd : GPTHeader) (s m : Nat),
      hd.part_entry_size = 128 →
      (event.drop (hd.part_entry_start_lba * s)).length = 128 * m →
      m ≤ hd.num_part_entries →
      (∀ k < m, pyDecodeUtf16
        (((event.drop (hd.part_entry_start_lba * s)).drop (128 * k + 56)).take 72) ≠ none) →
      (read_partitions event hd s).2 = none := by
  constructor
  · intro event hd s
    exact readPartLoop_length_le _ _ _ _
  · intro event hd s m hpes hlen hm hdec
    rw [read_partitions, hpes]
    exact readPartLoop_exhausted m _ 1 _ hlen hm hdec

/-- Witness for `c5_early_termination_is_not_error`: a region holding one
complete slot while the header declares two entries terminates with no
error, and the worked example yields at most `num_part_entries` records. -/
theorem c5_early_termination_is_not_error_witness :
    (read_partitions c2event exampleHeader 92).1.length ≤
      exampleHeader.num_part_entries ∧
    (read_partitions populatedEntry (bareHeader 2) 1).2 = none :=
  ⟨c5_early_termination_is_not_error.1 c2event exampleHeader 92,
   c5_early_termination_is_not_error.2 populatedEntry (bareHeader 2) 1 1 rfl
     (by decide) (by decide) (by decide)⟩

/-- **C6**: every field of a successfully decoded header is the verbatim
value of its fixed-layout region, except `disk_guid`, which is
canonicalised and whose re-encoding recovers the original 16 wire bytes. -/
theorem c6_fields_verbatim_guid_roundtrip (event : List Nat) (hd : GPTHeader)
    (hok : read_header event = .ok hd) (hbytes : ∀ b ∈ event, b < 256) :
    HeaderMatchesLayout event hd := by
  obtain ⟨h92, hsig, hrev, hsize, hcrc, hcur, hback, hfirst, hlast, hguid,
    hstart, hnum, hpes, hcrc2, -, -, -⟩ := read_header_ok_cases event hd hok
  have hlen : 92 ≤ event.length := by
    simp only [List.length_take] at h92
    omega
  have hguid16 : ((event.take 92).drop 56).take 16 = (event.drop 56).take 16 :=
    take92_drop_take event 56 16 (by norm_num)
  have hglen : ((event.drop 56).take 16).length = 16 := by
    simp only [List.length_take, List.length_drop]
    omega
  have hgb : ∀ b ∈ (event.drop 56).take 16, b < 256 := fun b hbm =>
    hbytes b (List.mem_of_mem_drop (List.mem_of_mem_take hbm))
  refine ⟨?_, ?_, ?_, ?_, ?_, ?_, ?_, ?_, ?_, ?_, ?_, ?_, ?_, ?_⟩
  · rw [hsig, List.take_take]; norm_num
  · rw [hrev, take92_drop_take event 8 4 (by norm_num)]
  · rw [hsize, take92_drop_take event 12 4 (by norm_num)]
  · rw [hcrc, take92_drop_take event 16 4 (by norm_num)]
  · rw [hcur, take92_drop_take event 24 8 (by norm_num)]
  · rw [hback, take92_drop_take event 32 8 (by norm_num)]
  · rw [hfirst, take92_drop_take event 40 8 (by norm_num)]
  · rw [hlast, take92_drop_take event 48 8 (by norm_num)]
  · rw [hguid, hguid16]
  · rw [hguid, hguid16]
    exact guidEncodeLE_uuidStrLE _ hglen hgb
  · rw [hstart, take92_drop_take event 72 8 (by norm_num)]
  · rw [hnum, take92_drop_take event 80 4 (by norm_num)]
  · rw [hpes, take92_drop_take event 84 4 (by norm_num)]
  · rw [hcrc2, take92_drop_take event 88 4 (by norm_num)]

/-- Witness for `c6_fields_verbatim_guid_roundtrip` at the worked-example
buffer. -/
theorem c6_fields_verbatim_guid_roundtrip_witness :
    HeaderMatchesLayout c2event exampleHeader :=
  c6_fields_verbatim_guid_roundtrip c2event exampleHeader rfl (by decide)

/-- **C7**: a header returned by `read_header` always carries the
validated signature, revision and `header_size ≥ 92`. -/
theorem c7_header_fully_validated (event : List Nat) (hd : GPTHeader)
    (hok : read_header event = .ok hd) :
    hd.signature = efiPartSignature ∧ hd.revision = revision10 ∧
    92 ≤ hd.header_size := by
  obtain ⟨-, -, -, -, -, -, -, -, -, -, -, -, -, -, hsig, hrev, hsize⟩ :=
    read_header_ok_cases event hd hok
  exact ⟨hsig, hrev, hsize⟩

/-- Witness for `c7_header_fully_validated` at the worked-example buffer. -/
theorem c7_header_fully_validated_witness :
    exampleHeader.signature = efiPartSignature ∧
    exampleHeader.revision = revision10 ∧
    92 ≤ exampleHeader.header_size :=
  c7_header_fully_validated c2event exampleHeader rfl

/-- **C8**: a buffer long enough for the header prefix whose first 8 bytes
differ from `EFI PART` always fails with `badSignature` carrying those
bytes, whatever the other fields hold. -/
theorem c8_bad_signature (event : List Nat) (hlen : 92 ≤ event.length)
    (hsig : event.take 8 ≠ efiPartSignature) :
    read_header event = .error (.badSignature (event.take 8)) := by
  have h92 : (event.take 92).length = 92 := by
    simp only [List.length_take]
    omega
  have h8 : (event.take 92).take 8 = event.take 8 := by
    rw [List.take_take]; norm_num
  simp only [read_header, read_header_data, h92, h8]
  simp [hsig]

/-- Witness for `c8_bad_signature` at a 92-byte all-zero buffer. -/
theorem c8_bad_signature_witness :
    92 ≤ (List.replicate 92 0 : List Nat).length ∧
    (List.replicate 92 0 : List Nat).take 8 ≠ efiPartSignature ∧
    read_header (List.replicate 92 0) =
      .error (.badSignature ((List.replicate 92 0 : List Nat).take 8)) :=
  ⟨by decide, by decide, c8_bad_signature _ (by decide) (by decide)⟩

/-- **C9** (counterexample): `read_partitions` invoked without the
`lba_size` argument behaves as the built-in default 50 — and differently
from the standard 512 — so a built-in default does exist. -/
theorem c9_default_sector_size_exists :
    read_partitions_default c9buf c9hdr = read_partitions c9buf c9hdr 50 ∧
    read_partitions_default c9buf c9hdr ≠ read_partitions c9buf c9hdr 512 := by
  constructor
  · rfl
  · decide

/-- **C9** (amended): the partition-array byte offset is
`part_entry_start_lba * lba_size` — dropping exactly that many bytes
hands the rest of the buffer to the entry loop — and the omitted-argument
invocation uses the built-in default `lba_size = 50`. -/
theorem c9_offset_computation :
    (∀ (pad rest : List Nat) (hd : GPTHeader) (s : Nat),
      pad.length = hd.part_entry_start_lba * s →
      read_partitions (pad ++ rest) hd s =
        readPartLoop rest hd.part_entry_size 1 hd.num_part_entries) ∧
    ∀ (event : List Nat) (hd : GPTHeader),
      read_partitions_default event hd = read_partitions event hd 50 := by
  constructor
  · intro pad rest hd s hlen
    rw [read_partitions, ← hlen, List.drop_left]
  · intro event hd
    rfl

/-- Witness for `c9_offset_computation`: 50 bytes of padding equal the
offset `1 * 50`, so the loop starts right after them. -/
theorem c9_offset_computation_witness :
    read_partitions (List.replicate 50 0 ++ populatedEntry) c9hdr 50 =
      readPartLoop populatedEntry c9hdr.part_entry_size 1 c9hdr.num_part_entries ∧
    read_partitions_default c9buf c9hdr = read_partitions c9buf c9hdr 50 :=
  ⟨c9_offset_computation.1 (List.replicate 50 0) populatedEntry c9hdr 50 (by decide),
   c9_offset_computation.2 c9buf c9hdr⟩

/-- **C10**: `read_header` reads nothing beyond the first 92 bytes: two
buffers agreeing on their 92-byte prefix decode identically. -/
theorem c10_depends_only_on_prefix (e1 e2 : List Nat)
    (hpre : e1.take 92 = e2.take 92) : read_header e1 = read_header e2 := by
  simp only [read_header]
  rw [hpre]

/-- Witness for `c10_depends_only_on_prefix`: appending a byte beyond the
prefix does not change the result. -/
theorem c10_depends_only_on_prefix_witness :
    read_header c2event = read_header (c2event ++ [7]) :=
  c10_depends_only_on_prefix c2event (c2event ++ [7]) (by decide)

end ParseGpt
